import Mathlib

/-!
Verification of the `conv2` numeric-conversion crate against its specification.

The development shallow-embeds the source (`src/impls.rs`, `src/limits.rs`,
`src/errors.rs`, `src/lib.rs`) as follows:

* machine integers become `ℤ` together with a per-type range descriptor
  (`IntTy.tmin`, `IntTy.tmax`), mirroring the `MIN`/`MAX` constants of each
  Rust primitive type.  We model the `target_pointer_width = "64"`
  configuration, so `isize`/`usize` have 64-bit ranges;
* IEEE floats become the inductive `Fp`: a NaN, a signed infinity, or an
  exact finite value carried as a rational.  All float operations the
  conversion code performs (comparisons, `is_nan`, `is_finite`, `round`,
  `floor`, `ceil`, `to_int_unchecked` truncation) are exact on float values,
  so they are faithfully represented by the corresponding exact operations
  on `ℚ`.  Decimal float literals from `limits.rs` are interpreted by an
  executable round-to-nearest-ties-to-even function (`roundToPrec`), which is
  how Rust resolves a decimal literal to an `f32`/`f64` value;
* each `macro_rules` conversion template from `impls.rs` becomes one Lean
  function, and the per-type instantiation lists (`lang_ints`,
  `lang_int_to_float`, `lang_float_to_int`) become dispatch tables.
-/

set_option maxRecDepth 4000
set_option maxHeartbeats 1000000
set_option linter.unreachableTactic false
set_option linter.unusedTactic false

namespace Conv2

/-- Rust `Result<T, E>`: `Ok` carries the converted value, `Err` the error. -/
inductive RustResult (ε : Type) (α : Type) where
  | Ok (val : α)
  | Err (e : ε)
deriving DecidableEq, Repr

/-- `errors::NoError`: uninhabited, a conversion that can never fail. -/
inductive NoError : Type
deriving DecidableEq

/-- `errors::Unrepresentable<T>`: tuple struct carrying the rejected input. -/
inductive Unrepresentable (α : Type) where
  | mk (val : α)
deriving DecidableEq, Repr

/-- `errors::RangeError<T>` (also covers the one-sided `NegOverflow<T>` /
`PosOverflow<T>` structs, which inject into it losslessly). -/
inductive RangeError (α : Type) where
  | NegOverflow (val : α)
  | PosOverflow (val : α)
deriving DecidableEq, Repr

/-- `errors::FloatError<T>`. -/
inductive FloatError (α : Type) where
  | NegOverflow (val : α)
  | PosOverflow (val : α)
  | NotANumber (val : α)
deriving DecidableEq, Repr

/-- The ten primitive integer types of the conversion table. -/
inductive IntTy where
  | i8 | i16 | i32 | i64 | isize
  | u8 | u16 | u32 | u64 | usize
deriving DecidableEq, Repr, Fintype

/-- Bit width (pointer width 64 for `isize`/`usize`). -/
def IntTy.bits : IntTy → ℕ
  | .i8 => 8 | .i16 => 16 | .i32 => 32 | .i64 => 64 | .isize => 64
  | .u8 => 8 | .u16 => 16 | .u32 => 32 | .u64 => 64 | .usize => 64

/-- Signedness of the type. -/
def IntTy.sgn : IntTy → Bool
  | .i8 | .i16 | .i32 | .i64 | .isize => true
  | .u8 | .u16 | .u32 | .u64 | .usize => false

/-- The Rust `MIN` constant of each integer type. -/
def IntTy.tmin : IntTy → ℤ
  | .i8 => -128 | .i16 => -32768 | .i32 => -2147483648
  | .i64 => -9223372036854775808 | .isize => -9223372036854775808
  | .u8 => 0 | .u16 => 0 | .u32 => 0 | .u64 => 0 | .usize => 0

/-- The Rust `MAX` constant of each integer type. -/
def IntTy.tmax : IntTy → ℤ
  | .i8 => 127 | .i16 => 32767 | .i32 => 2147483647
  | .i64 => 9223372036854775807 | .isize => 9223372036854775807
  | .u8 => 255 | .u16 => 65535 | .u32 => 4294967295
  | .u64 => 18446744073709551615 | .usize => 18446744073709551615

/-- The two primitive float types. -/
inductive FloatTy where
  | f32 | f64
deriving DecidableEq, Repr, Fintype

/-- Mantissa precision (in bits, significand including the hidden bit). -/
def FloatTy.prec : FloatTy → ℕ
  | .f32 => 24
  | .f64 => 53

/-- An IEEE float value: NaN, a signed infinity, or an exact finite value.
(`inf true` is negative infinity.)  All finite float values are exact
rationals, and every float operation used by the conversion code is exact,
so `ℚ` carries finite values faithfully. -/
inductive Fp where
  | nan
  | inf (neg : Bool)
  | fin (val : ℚ)
deriving DecidableEq, Repr

/-- `f32::is_nan` / `f64::is_nan`. -/
def Fp.isNan : Fp → Bool
  | .nan => true
  | _ => false

/-- `f32::is_finite` / `f64::is_finite`. -/
def Fp.isFinite : Fp → Bool
  | .fin _ => true
  | _ => false

/-- IEEE `<` on floats: any comparison with NaN is false. -/
def Fp.lt : Fp → Fp → Bool
  | .nan, _ => false
  | _, .nan => false
  | .inf true, .inf true => false
  | .inf true, _ => true
  | _, .inf true => false
  | .inf false, _ => false
  | _, .inf false => true
  | .fin a, .fin b => decide (a < b)

/-- IEEE `<=` on floats: any comparison with NaN is false. -/
def Fp.le : Fp → Fp → Bool
  | .nan, _ => false
  | _, .nan => false
  | a, b => !(Fp.lt b a)

/-- Executable floor of a rational (`Rat.floor` kernel-reduces, the
`FloorRing` instance does not).  Proved equal to `⌊q⌋` below. -/
def qfloor (q : ℚ) : ℤ := q.floor

/-- Executable ceiling of a rational.  Proved equal to `⌈q⌉` below. -/
def qceil (q : ℚ) : ℤ := -((-q).floor)

/-- Executable absolute value on `ℚ`. -/
def qabs (q : ℚ) : ℚ := if q < 0 then -q else q

/-- Truncation toward zero of a rational (the mathematical effect of
`to_int_unchecked` on an in-range finite float). -/
def truncQ (q : ℚ) : ℤ :=
  if 0 ≤ q then qfloor q else qceil q

/-- `f32::round` / `f64::round` on finite values: round to nearest integer,
ties away from zero (exact: the result of rounding a float is always
representable).  For `q = a/b` with `b > 0` this is `⌊q + 1/2⌋` when
`q ≥ 0` and `⌈q - 1/2⌉` when `q < 0`, computed on numerator and
denominator so that it kernel-reduces. -/
def roundAwayQ (q : ℚ) : ℚ :=
  if 0 ≤ q then ((2 * q.num + (q.den : ℤ)) / (2 * (q.den : ℤ)) : ℤ)
  else (-((2 * (-q.num) + (q.den : ℤ)) / (2 * (q.den : ℤ))) : ℤ)

/-- `floor` on finite values. -/
def floorQ (q : ℚ) : ℚ := (qfloor q : ℤ)

/-- `ceil` on finite values. -/
def ceilQ (q : ℚ) : ℚ := (qceil q : ℤ)

/-- Lift a finite-value rounding function to floats: `round`/`floor`/`ceil`
map NaN to NaN and each infinity to itself. -/
def Fp.mapFin (f : ℚ → ℚ) : Fp → Fp
  | .fin q => .fin (f q)
  | x => x

/-- `to_int_unchecked`: truncate toward zero.  Only invoked by the
conversion code after the value has been checked to be finite and in range,
so the non-finite branches are never reached on any path we prove about. -/
def Fp.toIntTrunc : Fp → ℤ
  | .fin q => truncQ q
  | _ => 0

/-- Round-half-even of the fraction `a / b` (for `b > 0`): the nearest
integer, ties going to the even one. -/
def rheDiv (a b : ℤ) : ℤ :=
  let f := a / b
  let r2 := 2 * (a - f * b)
  if r2 < b then f
  else if b < r2 then f + 1
  else if f % 2 = 0 then f else f + 1

/-- Floor of the base-2 logarithm, by structural recursion on a fuel
argument so that it kernel-reduces (`Nat.log2` itself does not). -/
def log2F : ℕ → ℕ → ℕ
  | 0, _ => 0
  | fuel + 1, n => if 2 ≤ n then log2F fuel (n / 2) + 1 else 0

/-- `nlog2 n` is `⌊log₂ n⌋` for `n ≥ 1`. -/
def nlog2 (n : ℕ) : ℕ := log2F n n

/-- Round an exact rational to the nearest binary-float value with a
`p`-bit significand, ties to even — the IEEE rounding Rust applies when a
decimal literal or an integer is converted to `f32`/`f64`.  For
`2 ^ e ≤ |q| < 2 ^ (e + 1)` the representable values are the multiples of
`2 ^ (e - p + 1)`.  This development only applies the function to values of
magnitude ≥ 1 (boundary constants, integer casts), where the formula below
is the IEEE one; magnitudes below 1 are returned unchanged and never relied
upon. -/
def roundToPrec (p : ℕ) (q : ℚ) : ℚ :=
  if q = 0 then 0
  else if qabs q < 1 then q
  else
    let e : ℕ := nlog2 (qfloor (qabs q)).toNat
    if p ≤ e + 1 then
      let u : ℤ := 2 ^ (e + 1 - p)
      ((rheDiv q.num ((q.den : ℤ) * u)) * u : ℤ)
    else
      let s : ℕ := p - 1 - e
      mkRat (rheDiv (q.num * 2 ^ s) (q.den : ℤ)) (2 ^ s)

/-- The `f32` value denoted by an exact decimal amount. -/
def f32OfRat : ℚ → ℚ := roundToPrec 24

/-- The `f64` value denoted by an exact decimal amount. -/
def f64OfRat : ℚ → ℚ := roundToPrec 53

/-- Rust `as` cast from an integer to a float type: round to nearest, ties
to even. -/
def castIntF (ft : FloatTy) (n : ℤ) : ℚ := roundToPrec ft.prec (n : ℚ)

/-! ### The boundary constant table (`src/limits.rs`)

Each constant is written in the source as a decimal float literal; here it
is the `f32`/`f64` value that literal denotes, computed by `roundToPrec`.
The equalities with the explicit powers of two are proved below. -/

/-- `limits.rs`: `pub const MAX_F32_I32: f32 = 2.1474835e9;`. -/
def MAX_F32_I32 : ℚ := f32OfRat 2147483500

/-- `limits.rs`: `pub const MIN_F32_I32: f32 = -2.1474836e9;`. -/
def MIN_F32_I32 : ℚ := f32OfRat (-2147483600)

/-- `limits.rs`: `pub const MAX_F32_I64: f32 = 9.2233715e18;`. -/
def MAX_F32_I64 : ℚ := f32OfRat 9223371500000000000

/-- `limits.rs`: `pub const MIN_F32_I64: f32 = -9.223372e18;`. -/
def MIN_F32_I64 : ℚ := f32OfRat (-9223372000000000000)

/-- `limits.rs`: `pub const MAX_F32_U32: f32 = 4.294967e9;`. -/
def MAX_F32_U32 : ℚ := f32OfRat 4294967000

/-- `limits.rs`: `pub const MAX_F32_U64: f32 = 1.8446743e19;`. -/
def MAX_F32_U64 : ℚ := f32OfRat 18446743000000000000

/-- `limits.rs` (64-bit target): `MAX_F32_ISIZE = MAX_F32_I64`. -/
def MAX_F32_ISIZE : ℚ := MAX_F32_I64

/-- `limits.rs` (64-bit target): `MIN_F32_ISIZE = MIN_F32_I64`. -/
def MIN_F32_ISIZE : ℚ := MIN_F32_I64

/-- `limits.rs` (64-bit target): `MAX_F32_USIZE = MAX_F32_U64`. -/
def MAX_F32_USIZE : ℚ := MAX_F32_U64

/-- `limits.rs`: `pub const MAX_F64_I64: f64 = 9.223372036854775e18;`. -/
def MAX_F64_I64 : ℚ := f64OfRat 9223372036854775000

/-- `limits.rs`: `pub const MIN_F64_I64: f64 = -9.223372036854776e18;`. -/
def MIN_F64_I64 : ℚ := f64OfRat (-9223372036854776000)

/-- `limits.rs`: `pub const MAX_F64_U64: f64 = 1.844674407370955e19;`. -/
def MAX_F64_U64 : ℚ := f64OfRat 18446744073709550000

/-! ### Float-to-integer conversion templates (`src/impls.rs` lines 94–173)

Each `macro_rules` template becomes one function, parameterised by the
bounds and (for `impl_float2int_round`) the rounding step, exactly as the
macro is parameterised. -/

/-- `impl_float2int_round`: NaN test, explicit rounding step, then bound
checks against the *rounded* value; errors carry the original input. -/
def float2int_round (mn mx : Fp) (rnd : ℚ → ℚ) (src : Fp) :
    RustResult (FloatError Fp) ℤ :=
  if src.isNan then .Err (.NotANumber src)
  else
    let approx := Fp.mapFin rnd src
    if Fp.lt approx mn then .Err (.NegOverflow src)
    else if Fp.lt mx approx then .Err (.PosOverflow src)
    else .Ok approx.toIntTrunc

/-- `impl_float2int_trunc_large`: NaN test, then strict bound checks on the
raw input (`<` min, `>` max: limits are the min/max values that succeed),
then truncating cast. -/
def float2int_trunc_large (mn mx : Fp) (src : Fp) :
    RustResult (FloatError Fp) ℤ :=
  if src.isNan then .Err (.NotANumber src)
  else if Fp.lt src mn then .Err (.NegOverflow src)
  else if Fp.lt mx src then .Err (.PosOverflow src)
  else .Ok src.toIntTrunc

/-- `impl_float2int_trunc`: NaN test, then non-strict bound checks
(`<=` min, `>=` max: limits are the first values that *fail*), then
truncating cast. -/
def float2int_trunc (mn mx : Fp) (src : Fp) :
    RustResult (FloatError Fp) ℤ :=
  if src.isNan then .Err (.NotANumber src)
  else if Fp.le src mn then .Err (.NegOverflow src)
  else if Fp.le mx src then .Err (.PosOverflow src)
  else .Ok src.toIntTrunc

/-- The approximation schemes with a float→int implementation
(`num_conv_float2int` instantiates every pair at exactly these five;
`Wrapping` has no float→int implementation). -/
inductive Scheme where
  | DefaultApprox | RoundToZero | RoundToNearest | RoundToNegInf | RoundToPosInf
deriving DecidableEq, Repr, Fintype

/-- The rounding step selected by each explicit-rounding scheme
(`|s| s.round()`, `|s| s.floor()`, `|s| s.ceil()`). -/
def Scheme.roundFn : Scheme → (ℚ → ℚ)
  | .RoundToNearest => roundAwayQ
  | .RoundToNegInf => floorQ
  | .RoundToPosInf => ceilQ
  | _ => id

/-- Whether the scheme uses `impl_float2int_round`. -/
def Scheme.isRounding : Scheme → Bool
  | .RoundToNearest | .RoundToNegInf | .RoundToPosInf => true
  | _ => false

/-- The two arms of `num_conv_float2int`: either explicit `[min, max]`
limits from the boundary-constant table, or the destination type's own
`MIN`/`MAX`. -/
inductive F2IKind where
  | explicitLimits (mn mx : ℚ)
  | dstRange
deriving DecidableEq

/-- The instantiation table `lang_float_to_int` (`impls.rs` lines 477–519),
for `target_pointer_width = "64"`. -/
def f2iKind : FloatTy → IntTy → F2IKind
  | .f32, .i8 => .dstRange
  | .f32, .i16 => .dstRange
  | .f32, .i32 => .explicitLimits MIN_F32_I32 MAX_F32_I32
  | .f32, .i64 => .explicitLimits MIN_F32_I64 MAX_F32_I64
  | .f32, .u8 => .dstRange
  | .f32, .u16 => .dstRange
  | .f32, .u32 => .explicitLimits 0 MAX_F32_U32
  | .f32, .u64 => .explicitLimits 0 MAX_F32_U64
  | .f32, .isize => .explicitLimits MIN_F32_ISIZE MAX_F32_ISIZE
  | .f32, .usize => .explicitLimits 0 MAX_F32_USIZE
  | .f64, .i8 => .dstRange
  | .f64, .i16 => .dstRange
  | .f64, .i32 => .dstRange
  | .f64, .i64 => .explicitLimits MIN_F64_I64 MAX_F64_I64
  | .f64, .u8 => .dstRange
  | .f64, .u16 => .dstRange
  | .f64, .u32 => .dstRange
  | .f64, .u64 => .explicitLimits 0 MAX_F64_U64
  | .f64, .isize => .explicitLimits MIN_F64_I64 MAX_F64_I64
  | .f64, .usize => .explicitLimits 0 MAX_F64_U64

/-- One instantiation of `num_conv_float2int`: the `dstRange` arm uses
`[$dst::MIN as $src - 1.0, $dst::MAX as $src + 1.0]` for the truncating
schemes and `[$dst::MIN as $src, $dst::MAX as $src]` for the rounding
schemes (all these casts and the `±1.0` arithmetic are exact in the source
float type for every `dstRange` pair); the `explicitLimits` arm uses the
boundary constants for all five schemes. -/
def runF2I (k : F2IKind) (it : IntTy) (s : Scheme) (src : Fp) :
    RustResult (FloatError Fp) ℤ :=
  match k with
  | .explicitLimits mn mx =>
    match s with
    | .DefaultApprox | .RoundToZero =>
        float2int_trunc_large (.fin mn) (.fin mx) src
    | .RoundToNearest => float2int_round (.fin mn) (.fin mx) roundAwayQ src
    | .RoundToNegInf => float2int_round (.fin mn) (.fin mx) floorQ src
    | .RoundToPosInf => float2int_round (.fin mn) (.fin mx) ceilQ src
  | .dstRange =>
    match s with
    | .DefaultApprox | .RoundToZero =>
        float2int_trunc (.fin ((it.tmin - 1 : ℤ) : ℚ))
          (.fin ((it.tmax + 1 : ℤ) : ℚ)) src
    | .RoundToNearest =>
        float2int_round (.fin (it.tmin : ℚ)) (.fin (it.tmax : ℚ)) roundAwayQ src
    | .RoundToNegInf =>
        float2int_round (.fin (it.tmin : ℚ)) (.fin (it.tmax : ℚ)) floorQ src
    | .RoundToPosInf =>
        float2int_round (.fin (it.tmin : ℚ)) (.fin (it.tmax : ℚ)) ceilQ src

/-- `ApproxFrom<$float, $scheme>::approx_from` for `$int`. -/
def approxF2I (ft : FloatTy) (it : IntTy) (s : Scheme) (src : Fp) :
    RustResult (FloatError Fp) ℤ :=
  runF2I (f2iKind ft it) it s src

/-- The bounds the rounding schemes check the rounded value against. -/
def roundBounds (ft : FloatTy) (it : IntTy) : ℚ × ℚ :=
  match f2iKind ft it with
  | .explicitLimits mn mx => (mn, mx)
  | .dstRange => ((it.tmin : ℚ), (it.tmax : ℚ))

/-! ### Integer-to-integer conversions (`num_conv`, `mod lang_ints`)

Each arm of `num_conv` becomes one function over the destination bounds;
the per-pair arm selection (`impls.rs` lines 392–414, with the
`target_pointer_width = "64"` alternatives) becomes the table `intArm`. -/

/-- The checking-strategy arms of `num_conv`. -/
inductive Arm where
  | e       -- exact conversion
  | nBoth   -- narrowing, both bounds (`n`)
  | nPlus   -- signed into unsigned, max representable (`n+`)
  | nMinus  -- unsigned narrowing, max check only (`n-`)
  | w       -- widening
  | wPlus   -- signed into unsigned widening, zero check only (`w+`)
deriving DecidableEq, Repr

/-- Rust `as` between integer types: keep the low `bits` bits and
reinterpret them in the destination's signedness. -/
def wrapCast (d : IntTy) (x : ℤ) : ℤ :=
  let w := d.bits
  let r := x % ((2 ^ w : ℕ) : ℤ)
  if d.sgn && decide (((2 ^ (w - 1) : ℕ) : ℤ) ≤ r) then r - ((2 ^ w : ℕ) : ℤ)
  else r

/-- `ValueFrom::value_from` body of each `num_conv` arm (the bodies of the
`e`/`n`/`n+`/`n-`/`w`/`w+` match arms of the macro; the `DefaultApprox`
`ApproxFrom` impls generated alongside — `approx_blind`,
`approx_dmin_to_dmax`, `approx_z_to_dmax`, `approx_to_dmax`, `approx_z_up`
— have literally identical bodies arm-by-arm).  For the `e`/`w` arms the
`src as $dst` cast is value-preserving on every in-range input, which
`wrapCast` reproduces. -/
def armRun (a : Arm) (d : IntTy) (x : ℤ) : RustResult (RangeError ℤ) ℤ :=
  match a with
  | .e => .Ok (wrapCast d x)
  | .w => .Ok (wrapCast d x)
  | .nBoth =>
    if x < d.tmin then .Err (.NegOverflow x)
    else if d.tmax < x then .Err (.PosOverflow x)
    else .Ok (wrapCast d x)
  | .nPlus =>
    if x < 0 then .Err (.NegOverflow x)
    else if d.tmax < x then .Err (.PosOverflow x)
    else .Ok (wrapCast d x)
  | .nMinus =>
    if d.tmax < x then .Err (.PosOverflow x)
    else .Ok (wrapCast d x)
  | .wPlus =>
    if x < 0 then .Err (.NegOverflow x)
    else .Ok (wrapCast d x)

/-- The `mod lang_ints` instantiation table (64-bit pointer width).  The
diagonal is the reflexive blanket impl from `lib.rs` (`Ok(src)`), an exact
conversion. -/
def intArm : IntTy → IntTy → Arm
  | .i8, .i8 => .e
  | .i8, .i16 => .w | .i8, .i32 => .w | .i8, .i64 => .w | .i8, .isize => .w
  | .i8, .u8 => .wPlus | .i8, .u16 => .wPlus | .i8, .u32 => .wPlus
  | .i8, .u64 => .wPlus | .i8, .usize => .wPlus
  | .i16, .i8 => .nBoth | .i16, .i16 => .e
  | .i16, .i32 => .w | .i16, .i64 => .w | .i16, .isize => .w
  | .i16, .u8 => .nPlus | .i16, .u16 => .wPlus | .i16, .u32 => .wPlus
  | .i16, .u64 => .wPlus | .i16, .usize => .wPlus
  | .i32, .i8 => .nBoth | .i32, .i16 => .nBoth | .i32, .i32 => .e
  | .i32, .i64 => .w | .i32, .isize => .w
  | .i32, .u8 => .nPlus | .i32, .u16 => .nPlus | .i32, .u32 => .wPlus
  | .i32, .u64 => .wPlus | .i32, .usize => .wPlus
  | .i64, .i8 => .nBoth | .i64, .i16 => .nBoth | .i64, .i32 => .nBoth
  | .i64, .i64 => .e | .i64, .isize => .e
  | .i64, .u8 => .nPlus | .i64, .u16 => .nPlus | .i64, .u32 => .nPlus
  | .i64, .u64 => .wPlus | .i64, .usize => .wPlus
  | .isize, .i8 => .nBoth | .isize, .i16 => .nBoth | .isize, .i32 => .nBoth
  | .isize, .i64 => .e | .isize, .isize => .e
  | .isize, .u8 => .nPlus | .isize, .u16 => .nPlus | .isize, .u32 => .nPlus
  | .isize, .u64 => .wPlus | .isize, .usize => .wPlus
  | .u8, .i8 => .nMinus
  | .u8, .i16 => .w | .u8, .i32 => .w | .u8, .i64 => .w | .u8, .isize => .w
  | .u8, .u8 => .e
  | .u8, .u16 => .w | .u8, .u32 => .w | .u8, .u64 => .w | .u8, .usize => .w
  | .u16, .i8 => .nMinus | .u16, .i16 => .nMinus
  | .u16, .i32 => .w | .u16, .i64 => .w | .u16, .isize => .w
  | .u16, .u8 => .nMinus | .u16, .u16 => .e
  | .u16, .u32 => .w | .u16, .u64 => .w | .u16, .usize => .w
  | .u32, .i8 => .nMinus | .u32, .i16 => .nMinus | .u32, .i32 => .nMinus
  | .u32, .i64 => .w | .u32, .isize => .w
  | .u32, .u8 => .nMinus | .u32, .u16 => .nMinus | .u32, .u32 => .e
  | .u32, .u64 => .w | .u32, .usize => .w
  | .u64, .i8 => .nMinus | .u64, .i16 => .nMinus | .u64, .i32 => .nMinus
  | .u64, .i64 => .nMinus | .u64, .isize => .nMinus
  | .u64, .u8 => .nMinus | .u64, .u16 => .nMinus | .u64, .u32 => .nMinus
  | .u64, .u64 => .e | .u64, .usize => .e
  | .usize, .i8 => .nMinus | .usize, .i16 => .nMinus | .usize, .i32 => .nMinus
  | .usize, .i64 => .nMinus | .usize, .isize => .nMinus
  | .usize, .u8 => .nMinus | .usize, .u16 => .nMinus | .usize, .u32 => .nMinus
  | .usize, .u64 => .e | .usize, .usize => .e

/-- `ValueFrom::value_from` between two integer types. -/
def valueFromInt (s d : IntTy) (x : ℤ) : RustResult (RangeError ℤ) ℤ :=
  armRun (intArm s d) d x

/-- `ApproxFrom<$src, DefaultApprox>::approx_from` between two integer
types: `num_conv` pairs each `ValueFrom` arm with an approx impl whose body
is identical. -/
def approxDefaultInt (s d : IntTy) (x : ℤ) : RustResult (RangeError ℤ) ℤ :=
  armRun (intArm s d) d x

/-- `ApproxFrom<$src, Wrapping>::approx_from`: every arm of `num_conv`
emits `approx_blind` (`Ok(src as $dst)`) at scheme `Wrapping`, and the
reflexive blanket impl covers the diagonal, so the wrapping conversion is
defined for every pair of integer types and is just the `as` cast. -/
def approxWrappingInt (_s d : IntTy) (x : ℤ) : RustResult NoError ℤ :=
  .Ok (wrapCast d x)

/-! ### Integer-to-float conversions (`mod lang_int_to_float`) -/

/-- The arms used by `lang_int_to_float`: plain widening, or the two `nf`
forms with an explicit literal bound (`[+- $bound]` / `[, $max]`). -/
inductive I2FArm where
  | w
  | nfSym (bound : ℤ)
  | nfMax (bound : ℤ)
deriving DecidableEq, Repr

/-- The `mod lang_int_to_float` table (`impls.rs` lines 460–475, 64-bit
pointer width). -/
def i2fArm : IntTy → FloatTy → I2FArm
  | .i8, _ => .w
  | .i16, _ => .w
  | .i32, .f32 => .nfSym 16777216
  | .i32, .f64 => .w
  | .i64, .f32 => .nfSym 16777216
  | .i64, .f64 => .nfSym 9007199254740992
  | .isize, .f32 => .nfSym 16777216
  | .isize, .f64 => .nfSym 9007199254740992
  | .u8, _ => .w
  | .u16, _ => .w
  | .u32, .f32 => .nfMax 16777216
  | .u32, .f64 => .w
  | .u64, .f32 => .nfMax 16777216
  | .u64, .f64 => .nfMax 9007199254740992
  | .usize, .f32 => .nfMax 16777216
  | .usize, .f64 => .nfMax 9007199254740992

/-- `ValueFrom::value_from` from an integer type into a float type. -/
def valueFromI2F (s : IntTy) (ft : FloatTy) (x : ℤ) :
    RustResult (RangeError ℤ) ℚ :=
  match i2fArm s ft with
  | .w => .Ok (castIntF ft x)
  | .nfSym b =>
    if x < -b then .Err (.NegOverflow x)
    else if b < x then .Err (.PosOverflow x)
    else .Ok (castIntF ft x)
  | .nfMax b =>
    if b < x then .Err (.PosOverflow x)
    else .Ok (castIntF ft x)

/-! ### Float-to-float conversion (`mod lang_floats`) -/

/-- `f32::MAX` as an exact rational: `(2 ^ 24 - 1) * 2 ^ 104`. -/
def F32_MAX_Q : ℚ := ((2 ^ 128 - 2 ^ 104 : ℕ) : ℚ)

/-- Rust `as` cast from `f64` to `f32`: NaN to NaN, infinities preserved,
finite values rounded to nearest `f32` (overflowing to the like-signed
infinity). -/
def castF64F32 : Fp → Fp
  | .nan => .nan
  | .inf b => .inf b
  | .fin q =>
    let r := f32OfRat q
    if F32_MAX_Q < qabs r then .inf (decide (q < 0)) else .fin r

/-- `ApproxFrom<f64> for f32` (`impls.rs` lines 442–457): non-finite inputs
return `Ok(src as f32)` before any range check; finite inputs are checked
against `f32::MIN as f64` / `f32::MAX as f64` (both exact in `f64`). -/
def approxF64toF32 (src : Fp) : RustResult (RangeError Fp) Fp :=
  if !src.isFinite then .Ok (castF64F32 src)
  else if Fp.lt src (.fin (-F32_MAX_Q)) then .Err (.NegOverflow src)
  else if Fp.lt (.fin F32_MAX_Q) src then .Err (.PosOverflow src)
  else .Ok (castF64F32 src)

/-! ### Saturation (`src/errors.rs` lines 344–406)

The `Saturate` impls live in `errors.rs` (present under `src/`), but the
`Saturated` trait giving `saturated_min`/`saturated_max` lives in the
`misc` module, which is declared in `lib.rs` yet absent from `src/`. -/

/-- Modelled from the spec: `misc::Saturated::saturated_min` for an integer
destination type — §4.4 prescribes "substitute destination-type min (on
negative overflow)", so the saturated minimum is the type's `MIN`. -/
def saturatedMin (d : IntTy) : ℤ := d.tmin

/-- Modelled from the spec: `misc::Saturated::saturated_max` for an integer
destination type — §4.4 prescribes "destination-type max (on positive
overflow)", so the saturated maximum is the type's `MAX`. -/
def saturatedMax (d : IntTy) : ℤ := d.tmax

/-- `Saturate for Result<T, FloatError<U>>` (`errors.rs` lines 359–374),
at an integer destination type `d`. -/
def saturateFloat (d : IntTy) :
    RustResult (FloatError Fp) ℤ → RustResult (Unrepresentable Fp) ℤ
  | .Ok v => .Ok v
  | .Err (.NegOverflow _) => .Ok (saturatedMin d)
  | .Err (.PosOverflow _) => .Ok (saturatedMax d)
  | .Err (.NotANumber v) => .Err (.mk v)

/-- `Saturate for Result<T, RangeError<U>>` (`errors.rs` lines 376–390),
at an integer destination type `d`: the output error type is `NoError`. -/
def saturateRange (d : IntTy) :
    RustResult (RangeError ℤ) ℤ → RustResult NoError ℤ
  | .Ok v => .Ok v
  | .Err (.NegOverflow _) => .Ok (saturatedMin d)
  | .Err (.PosOverflow _) => .Ok (saturatedMax d)

/-! ### Auxiliary predicates for the proofs -/

/-- `q` is an exactly representable value of a binary float format with a
`p`-bit significand (exponent range unconstrained: all values in this
development are far from overflow and underflow). -/
def IsRepF (p : ℕ) (q : ℚ) : Prop :=
  ∃ m e : ℤ, |m| < 2 ^ p ∧ q = (m : ℚ) * (2 : ℚ) ^ e

/-- Relation between an arm of `num_conv` and the source/destination ranges
under which the arm's checks are equivalent to the canonical
"low bound first, then high bound" check against the destination range. -/
def armOK (a : Arm) (smin smax : ℤ) (d : IntTy) : Prop :=
  match a with
  | .e | .w => d.tmin ≤ smin ∧ smax ≤ d.tmax
  | .nBoth => True
  | .nPlus => d.tmin = 0
  | .nMinus => d.tmin ≤ smin
  | .wPlus => d.tmin = 0 ∧ smax ≤ d.tmax

instance (a : Arm) (smin smax : ℤ) (d : IntTy) :
    Decidable (armOK a smin smax d) := by
  unfold armOK; cases a <;> infer_instance

/-- The bounds of an instantiated `num_conv_float2int` arm versus the
destination range: explicit limits lie inside the destination range. -/
def kindWF (k : F2IKind) (it : IntTy) : Prop :=
  match k with
  | .explicitLimits mn mx => (it.tmin : ℚ) ≤ mn ∧ mx ≤ (it.tmax : ℚ)
  | .dstRange => it.tmin ≤ 0 ∧ 0 ≤ it.tmax

instance (k : F2IKind) (it : IntTy) : Decidable (kindWF k it) := by
  unfold kindWF; cases k <;> infer_instance

/-! ### Bridging lemmas: the executable arithmetic versus `⌊⌋`/`⌈⌉` -/

theorem qfloor_eq (q : ℚ) : qfloor q = ⌊q⌋ := by
  rw [qfloor, Rat.floor_def', ← Rat.floor_def]

theorem qceil_eq (q : ℚ) : qceil q = ⌈q⌉ := by
  rw [qceil, Rat.floor_def', ← Rat.floor_def, Int.floor_neg, neg_neg]

theorem truncQ_intCast (k : ℤ) : truncQ (k : ℚ) = k := by
  unfold truncQ
  split_ifs <;> simp [qfloor_eq, qceil_eq]

theorem le_truncQ {m : ℤ} {q : ℚ} (h : (m : ℚ) ≤ q) : m ≤ truncQ q := by
  unfold truncQ
  split_ifs with h0
  · rw [qfloor_eq]; exact Int.le_floor.2 h
  · rw [qceil_eq]
    have h2 : (m : ℚ) ≤ (⌈q⌉ : ℚ) := h.trans (Int.le_ceil q)
    exact_mod_cast h2

theorem truncQ_le {m : ℤ} {q : ℚ} (h : q ≤ (m : ℚ)) : truncQ q ≤ m := by
  unfold truncQ
  split_ifs with h0
  · rw [qfloor_eq]
    have h2 : (⌊q⌋ : ℚ) ≤ (m : ℚ) := (Int.floor_le q).trans h
    exact_mod_cast h2
  · rw [qceil_eq]; exact Int.ceil_le.2 h

theorem truncQ_lower {m : ℤ} {q : ℚ} (hm : m ≤ 0) (h : ((m : ℚ)) - 1 < q) :
    m ≤ truncQ q := by
  unfold truncQ
  split_ifs with h0
  · rw [qfloor_eq]
    calc m ≤ 0 := hm
    _ ≤ ⌊q⌋ := Int.floor_nonneg.2 h0
  · rw [qceil_eq]
    have h2 : (m : ℚ) - 1 < (⌈q⌉ : ℚ) := lt_of_lt_of_le h (Int.le_ceil q)
    have h3 : (m : ℤ) - 1 < ⌈q⌉ := by exact_mod_cast h2
    omega

theorem truncQ_upper {m : ℤ} {q : ℚ} (hm : 0 ≤ m) (h : q < ((m : ℚ)) + 1) :
    truncQ q ≤ m := by
  unfold truncQ
  split_ifs with h0
  · rw [qfloor_eq]
    have h2 : (⌊q⌋ : ℚ) < (m : ℚ) + 1 := lt_of_le_of_lt (Int.floor_le q) h
    have h3 : ⌊q⌋ < m + 1 := by exact_mod_cast h2
    omega
  · rw [qceil_eq]
    calc ⌈q⌉ ≤ 0 := Int.ceil_le.2 (by push_cast; linarith)
    _ ≤ m := hm

theorem roundAwayQ_int (q : ℚ) : ∃ k : ℤ, roundAwayQ q = (k : ℚ) := by
  unfold roundAwayQ
  split_ifs <;> exact ⟨_, rfl⟩

theorem floorQ_int (q : ℚ) : ∃ k : ℤ, floorQ q = (k : ℚ) := ⟨_, rfl⟩

theorem ceilQ_int (q : ℚ) : ∃ k : ℤ, ceilQ q = (k : ℚ) := ⟨_, rfl⟩

/-! ### Reduction lemmas for the float model -/

@[simp] theorem Fp.isNan_fin (q : ℚ) : (Fp.fin q).isNan = false := rfl

@[simp] theorem Fp.isNan_inf (b : Bool) : (Fp.inf b).isNan = false := rfl

@[simp] theorem Fp.lt_fin_fin (a b : ℚ) :
    Fp.lt (.fin a) (.fin b) = decide (a < b) := rfl

@[simp] theorem Fp.le_fin_fin (a b : ℚ) :
    Fp.le (.fin a) (.fin b) = decide (a ≤ b) := by
  by_cases h : a ≤ b
  · have h2 : ¬(b < a) := not_lt.2 h
    show (!(decide (b < a))) = decide (a ≤ b)
    simp [h, h2]
  · have h2 : b < a := lt_of_not_le h
    show (!(decide (b < a))) = decide (a ≤ b)
    simp [h, h2]

@[simp] theorem Fp.mapFin_fin (f : ℚ → ℚ) (q : ℚ) :
    Fp.mapFin f (.fin q) = .fin (f q) := rfl

@[simp] theorem Fp.toIntTrunc_fin (q : ℚ) :
    (Fp.fin q).toIntTrunc = truncQ q := rfl

/-- `impl_float2int_trunc_large` on a finite input, as an if-chain on `ℚ`. -/
theorem float2int_trunc_large_fin (mn mx q : ℚ) :
    float2int_trunc_large (.fin mn) (.fin mx) (.fin q) =
      if q < mn then .Err (.NegOverflow (.fin q))
      else if mx < q then .Err (.PosOverflow (.fin q))
      else .Ok (truncQ q) := by
  simp [float2int_trunc_large]

/-- `impl_float2int_trunc` on a finite input, as an if-chain on `ℚ`. -/
theorem float2int_trunc_fin (mn mx q : ℚ) :
    float2int_trunc (.fin mn) (.fin mx) (.fin q) =
      if q ≤ mn then .Err (.NegOverflow (.fin q))
      else if mx ≤ q then .Err (.PosOverflow (.fin q))
      else .Ok (truncQ q) := by
  simp [float2int_trunc]

/-- `impl_float2int_round` on a finite input, as an if-chain on `ℚ`:
the bound checks are applied to the rounded value, the error payloads
carry the original input. -/
theorem float2int_round_fin (mn mx q : ℚ) (rnd : ℚ → ℚ) :
    float2int_round (.fin mn) (.fin mx) rnd (.fin q) =
      if rnd q < mn then .Err (.NegOverflow (.fin q))
      else if mx < rnd q then .Err (.PosOverflow (.fin q))
      else .Ok (truncQ (rnd q)) := by
  simp [float2int_round]

/-! ### Properties of the `as` cast between integer types -/

/-- On an input already inside the destination range, the `as` cast is the
identity. -/
theorem wrapCast_eq_self {d : IntTy} {x : ℤ} (h1 : d.tmin ≤ x)
    (h2 : x ≤ d.tmax) : wrapCast d x = x := by
  cases d <;>
    (simp only [wrapCast, IntTy.bits, IntTy.sgn, IntTy.tmin, IntTy.tmax,
      Bool.true_and, Bool.false_and, decide_eq_true_eq] at h1 h2 ⊢) <;>
    norm_num <;>
    first
    | (split_ifs <;> omega)
    | omega

/-- The `as` cast keeps the value congruent modulo `2 ^ bits`. -/
theorem wrapCast_mod {d : IntTy} (x : ℤ) :
    wrapCast d x % ((2 ^ d.bits : ℕ) : ℤ) = x % ((2 ^ d.bits : ℕ) : ℤ) := by
  cases d <;>
    (simp only [wrapCast, IntTy.bits, IntTy.sgn, Bool.true_and, Bool.false_and,
      decide_eq_true_eq]) <;>
    norm_num <;>
    first
    | (split_ifs <;> omega)
    | omega

/-- The `as` cast lands inside the destination range. -/
theorem wrapCast_in_range (d : IntTy) (x : ℤ) :
    d.tmin ≤ wrapCast d x ∧ wrapCast d x ≤ d.tmax := by
  cases d <;>
    (simp only [wrapCast, IntTy.bits, IntTy.sgn, IntTy.tmin, IntTy.tmax,
      Bool.true_and, Bool.false_and, decide_eq_true_eq]) <;>
    norm_num <;>
    first
    | (split_ifs <;> omega)
    | omega

/-- Each `num_conv` arm, on an in-range source value and at a destination
for which the table uses that arm, performs the canonical
"below `MIN` ⇒ `NegOverflow`, above `MAX` ⇒ `PosOverflow`, else exact"
check. -/
theorem armRun_eq {a : Arm} {smin smax : ℤ} {d : IntTy} {x : ℤ}
    (hx1 : smin ≤ x) (hx2 : x ≤ smax) (hok : armOK a smin smax d) :
    armRun a d x =
      (if x < d.tmin then .Err (.NegOverflow x)
       else if d.tmax < x then .Err (.PosOverflow x)
       else .Ok x) := by
  cases a with
  | e =>
    obtain ⟨h1, h2⟩ := hok
    rw [armRun, if_neg (by omega), if_neg (by omega),
      wrapCast_eq_self (by omega) (by omega)]
  | w =>
    obtain ⟨h1, h2⟩ := hok
    rw [armRun, if_neg (by omega), if_neg (by omega),
      wrapCast_eq_self (by omega) (by omega)]
  | nBoth =>
    rw [armRun]
    split_ifs with hA hB
    · rfl
    · rfl
    · rw [wrapCast_eq_self (by omega) (by omega)]
  | nPlus =>
    have h0 : d.tmin = 0 := hok
    rw [armRun, h0]
    split_ifs with hA hB
    · rfl
    · rfl
    · rw [wrapCast_eq_self (by omega) (by omega)]
  | nMinus =>
    have h0 : d.tmin ≤ smin := hok
    rw [armRun, if_neg (show ¬ x < d.tmin by omega)]
    split_ifs with hA
    · rfl
    · rw [wrapCast_eq_self (by omega) (by omega)]
  | wPlus =>
    obtain ⟨h0, h1⟩ := hok
    rw [armRun, h0, if_neg (show ¬ d.tmax < x by omega)]
    split_ifs with hA
    · rfl
    · rw [wrapCast_eq_self (by omega) (by omega)]

/-- The `lang_ints` table only pairs an arm with source/destination types
satisfying that arm's usage conditions. -/
theorem intArm_ok : ∀ s d : IntTy, armOK (intArm s d) s.tmin s.tmax d := by
  decide

/-! ### The `Ok` path always lands inside the destination range -/

theorem trunc_large_ok {mn mx : ℚ} {src : Fp} {n : ℤ} {dmn dmx : ℤ}
    (h1 : (dmn : ℚ) ≤ mn) (h2 : mx ≤ (dmx : ℚ))
    (h : float2int_trunc_large (.fin mn) (.fin mx) src = .Ok n) :
    src.isFinite = true ∧ dmn ≤ n ∧ n ≤ dmx := by
  match src with
  | .nan => simp [float2int_trunc_large, Fp.isNan] at h
  | .inf true => simp [float2int_trunc_large, Fp.isNan, Fp.lt] at h
  | .inf false => simp [float2int_trunc_large, Fp.isNan, Fp.lt] at h
  | .fin q =>
    rw [float2int_trunc_large_fin] at h
    split_ifs at h with hlo hhi
    cases h
    exact ⟨rfl, le_truncQ (h1.trans (not_lt.1 hlo)),
      truncQ_le ((not_lt.1 hhi).trans h2)⟩

theorem trunc_ok {src : Fp} {n : ℤ} {dmn dmx : ℤ}
    (h1 : dmn ≤ 0) (h2 : 0 ≤ dmx)
    (h : float2int_trunc (.fin ((dmn - 1 : ℤ) : ℚ)) (.fin ((dmx + 1 : ℤ) : ℚ))
          src = .Ok n) :
    src.isFinite = true ∧ dmn ≤ n ∧ n ≤ dmx := by
  match src with
  | .nan => simp [float2int_trunc, Fp.isNan] at h
  | .inf true => simp [float2int_trunc, Fp.isNan, Fp.le, Fp.lt] at h
  | .inf false => simp [float2int_trunc, Fp.isNan, Fp.le, Fp.lt] at h
  | .fin q =>
    rw [float2int_trunc_fin] at h
    split_ifs at h with hlo hhi
    cases h
    refine ⟨rfl, ?_, ?_⟩
    · refine truncQ_lower h1 ?_
      have := not_le.1 hlo
      push_cast at this ⊢
      linarith
    · refine truncQ_upper h2 ?_
      have := not_le.1 hhi
      push_cast at this ⊢
      linarith

theorem round_ok {mn mx : ℚ} {rnd : ℚ → ℚ} {src : Fp} {n : ℤ} {dmn dmx : ℤ}
    (hrnd : ∀ q, ∃ k : ℤ, rnd q = (k : ℚ))
    (h1 : (dmn : ℚ) ≤ mn) (h2 : mx ≤ (dmx : ℚ))
    (h : float2int_round (.fin mn) (.fin mx) rnd src = .Ok n) :
    src.isFinite = true ∧ dmn ≤ n ∧ n ≤ dmx := by
  match src with
  | .nan => simp [float2int_round, Fp.isNan] at h
  | .inf true => simp [float2int_round, Fp.isNan, Fp.mapFin, Fp.lt] at h
  | .inf false => simp [float2int_round, Fp.isNan, Fp.mapFin, Fp.lt] at h
  | .fin q =>
    rw [float2int_round_fin] at h
    split_ifs at h with hlo hhi
    obtain ⟨k, hk⟩ := hrnd q
    rw [hk] at h hlo hhi
    cases h
    rw [truncQ_intCast]
    refine ⟨rfl, ?_, ?_⟩
    · exact_mod_cast (h1.trans (not_lt.1 hlo))
    · exact_mod_cast ((not_lt.1 hhi).trans h2)

/-- Dispatch of the three `Ok`-path lemmas over one `num_conv_float2int`
instantiation. -/
theorem runF2I_ok {k : F2IKind} {it : IntTy} {s : Scheme} {src : Fp} {n : ℤ}
    (hk : kindWF k it) (h : runF2I k it s src = .Ok n) :
    src.isFinite = true ∧ it.tmin ≤ n ∧ n ≤ it.tmax := by
  cases k with
  | explicitLimits mn mx =>
    obtain ⟨h1, h2⟩ := hk
    cases s with
    | DefaultApprox => exact trunc_large_ok h1 h2 h
    | RoundToZero => exact trunc_large_ok h1 h2 h
    | RoundToNearest => exact round_ok roundAwayQ_int h1 h2 h
    | RoundToNegInf => exact round_ok floorQ_int h1 h2 h
    | RoundToPosInf => exact round_ok ceilQ_int h1 h2 h
  | dstRange =>
    obtain ⟨h1, h2⟩ := hk
    cases s with
    | DefaultApprox => exact trunc_ok h1 h2 h
    | RoundToZero => exact trunc_ok h1 h2 h
    | RoundToNearest => exact round_ok roundAwayQ_int (le_refl _) (le_refl _) h
    | RoundToNegInf => exact round_ok floorQ_int (le_refl _) (le_refl _) h
    | RoundToPosInf => exact round_ok ceilQ_int (le_refl _) (le_refl _) h

/-- Every entry of the `lang_float_to_int` table is well formed: explicit
limits lie inside the destination range. -/
theorem f2iKind_wf : ∀ ft it, kindWF (f2iKind ft it) it := by decide

/-! ### Representability: the off-by-one-ULP gap -/

theorem isRepF_neg {p : ℕ} {q : ℚ} (h : IsRepF p q) : IsRepF p (-q) := by
  obtain ⟨m, e, hm, rfl⟩ := h
  refine ⟨-m, e, by simpa using hm, by push_cast; ring⟩

/-- Nothing representable lies strictly between two consecutive grid points
`a * 2 ^ t` and `(a + 1) * 2 ^ t` when `a` occupies the full significand
width (`2 ^ (p-1) ≤ a < 2 ^ p`). -/
theorem repGap {p : ℕ} (hp : 1 ≤ p) {a t : ℤ} (h1 : 2 ^ (p - 1) ≤ a)
    (_h2 : a < 2 ^ p) {q : ℚ} (hq1 : (a : ℚ) * (2 : ℚ) ^ t < q)
    (hq2 : q < ((a : ℚ) + 1) * (2 : ℚ) ^ t) : ¬ IsRepF p q := by
  rintro ⟨m, e, hm, rfl⟩
  have h2t : (0 : ℚ) < (2 : ℚ) ^ t := zpow_pos (by norm_num) t
  have h2e : (0 : ℚ) < (2 : ℚ) ^ e := zpow_pos (by norm_num) e
  have ha0 : (0 : ℤ) < a := lt_of_lt_of_le (pow_pos (by norm_num) _) h1
  have hm0 : (0 : ℤ) < m := by
    by_contra hneg
    push_neg at hneg
    have hle : (m : ℚ) * (2 : ℚ) ^ e ≤ 0 :=
      mul_nonpos_iff.2 (Or.inr ⟨by exact_mod_cast hneg, le_of_lt h2e⟩)
    have hpos : (0 : ℚ) < (a : ℚ) * (2 : ℚ) ^ t :=
      mul_pos (by exact_mod_cast ha0) h2t
    linarith
  rcases le_or_lt t e with hte | hte
  · -- the candidate sits on a coarser-or-equal grid: it would be an
    -- integer multiple of `2 ^ t` strictly between `a` and `a + 1`
    set d : ℕ := (e - t).toNat with hd
    have hed : e = t + (d : ℤ) := by omega
    have key : (m : ℚ) * (2 : ℚ) ^ e = ((m * 2 ^ d : ℤ) : ℚ) * (2 : ℚ) ^ t := by
      rw [hed, zpow_add₀ (by norm_num : (2 : ℚ) ≠ 0)]
      push_cast
      rw [zpow_natCast]
      ring
    rw [key] at hq1 hq2
    have k1 : (a : ℚ) < ((m * 2 ^ d : ℤ) : ℚ) := (mul_lt_mul_right h2t).1 hq1
    have k2 : ((m * 2 ^ d : ℤ) : ℚ) < (a : ℚ) + 1 := (mul_lt_mul_right h2t).1 hq2
    have k1z : a < m * 2 ^ d := by exact_mod_cast k1
    have k2z : m * 2 ^ d < a + 1 := by exact_mod_cast k2
    obtain ⟨K, hK⟩ : ∃ K : ℤ, m * 2 ^ d = K := ⟨_, rfl⟩
    rw [hK] at k1z k2z
    omega
  · -- the candidate sits on a strictly finer grid: its significand would
    -- have to exceed `2 ^ p`
    set d : ℕ := (t - e).toNat with hd
    have hd1 : 1 ≤ d := by omega
    have hted : t = e + (d : ℤ) := by omega
    have key : (a : ℚ) * (2 : ℚ) ^ t = ((a * 2 ^ d : ℤ) : ℚ) * (2 : ℚ) ^ e := by
      rw [hted, zpow_add₀ (by norm_num : (2 : ℚ) ≠ 0)]
      push_cast
      rw [zpow_natCast]
      ring
    rw [key] at hq1
    have k1 : ((a * 2 ^ d : ℤ) : ℚ) < (m : ℚ) := (mul_lt_mul_right h2e).1 hq1
    have k1z : a * 2 ^ d < m := by exact_mod_cast k1
    have h2d : (2 : ℤ) ≤ 2 ^ d := by
      calc (2 : ℤ) = 2 ^ 1 := (pow_one 2).symm
      _ ≤ 2 ^ d := pow_le_pow_right₀ (by norm_num) hd1
    have hbig : (2 : ℤ) ^ p ≤ a * 2 ^ d := by
      have hps : (2 : ℤ) ^ p = 2 ^ (p - 1) * 2 := by
        rw [← pow_succ]
        congr 1
        omega
      rw [hps]
      exact mul_le_mul h1 h2d (by norm_num) (le_of_lt ha0)
    have habs : m < 2 ^ p := lt_of_le_of_lt (le_abs_self m) hm
    linarith

/-- The negative-direction version of `repGap`: nothing representable lies
strictly between `-(a + 1) * 2 ^ t` and `-a * 2 ^ t`. -/
theorem repGapNeg {p : ℕ} (hp : 1 ≤ p) {a t : ℤ} (h1 : 2 ^ (p - 1) ≤ a)
    (h2 : a < 2 ^ p) {q : ℚ} (hq1 : -(((a : ℚ) + 1) * (2 : ℚ) ^ t) < q)
    (hq2 : q < -((a : ℚ) * (2 : ℚ) ^ t)) : ¬ IsRepF p q := fun h =>
  repGap hp h1 h2 (q := -q) (by linarith) (by linarith) (isRepF_neg h)

/-- Instantiation helper: the gap property stated for literal endpoints. -/
theorem repGapLit (p : ℕ) (hp : 1 ≤ p) (a t : ℤ) (h1 : 2 ^ (p - 1) ≤ a)
    (h2 : a < 2 ^ p) (lo hi : ℚ) (hlo : lo = (a : ℚ) * (2 : ℚ) ^ t)
    (hhi : hi = ((a : ℚ) + 1) * (2 : ℚ) ^ t) :
    ∀ q, lo < q → q < hi → ¬ IsRepF p q := by
  intro q hq1 hq2
  exact repGap hp h1 h2 (hlo ▸ hq1) (hhi ▸ hq2)

/-- Instantiation helper, negative direction. -/
theorem repGapNegLit (p : ℕ) (hp : 1 ≤ p) (a t : ℤ) (h1 : 2 ^ (p - 1) ≤ a)
    (h2 : a < 2 ^ p) (lo hi : ℚ) (hlo : lo = -(((a : ℚ) + 1) * (2 : ℚ) ^ t))
    (hhi : hi = -((a : ℚ) * (2 : ℚ) ^ t)) :
    ∀ q, lo < q → q < hi → ¬ IsRepF p q := by
  intro q hq1 hq2
  exact repGapNeg hp h1 h2 (hlo ▸ hq1) (hhi ▸ hq2)

/-! ### Claim theorems -/

/-- C3: each stored boundary constant converts successfully to its integer
type and round-trips exactly (casting the constant to the integer type and
back to the float type reproduces the same float value), while the next
representable float value one ULP further toward infinity does not convert
successfully, failing with the corresponding overflow error.  Each block
states: the conversion of the constant succeeds with its exact integer
value; casting that integer back to the float type reproduces the constant;
the conversion of the next representable value fails with the matching
overflow kind; the constant and the next value are representable; and no
representable value lies strictly between them (so the next value really is
one ULP further). -/
theorem c3_boundary_exactness :
    (approxF2I .f32 .i32 .DefaultApprox (.fin MAX_F32_I32) = .Ok 2147483520 ∧
     castIntF .f32 2147483520 = MAX_F32_I32 ∧
     approxF2I .f32 .i32 .DefaultApprox (.fin 2147483648) =
       .Err (.PosOverflow (.fin 2147483648)) ∧
     IsRepF 24 MAX_F32_I32 ∧ IsRepF 24 (2147483648 : ℚ) ∧
     ∀ q : ℚ, MAX_F32_I32 < q → q < 2147483648 → ¬ IsRepF 24 q) ∧
    (approxF2I .f32 .i32 .DefaultApprox (.fin MIN_F32_I32) =
       .Ok (-2147483648) ∧
     castIntF .f32 (-2147483648) = MIN_F32_I32 ∧
     approxF2I .f32 .i32 .DefaultApprox (.fin (-2147483904)) =
       .Err (.NegOverflow (.fin (-2147483904))) ∧
     IsRepF 24 MIN_F32_I32 ∧ IsRepF 24 (-2147483904 : ℚ) ∧
     ∀ q : ℚ, -2147483904 < q → q < MIN_F32_I32 → ¬ IsRepF 24 q) ∧
    (approxF2I .f32 .i64 .DefaultApprox (.fin MAX_F32_I64) =
       .Ok 9223371487098961920 ∧
     castIntF .f32 9223371487098961920 = MAX_F32_I64 ∧
     approxF2I .f32 .i64 .DefaultApprox (.fin 9223372036854775808) =
       .Err (.PosOverflow (.fin 9223372036854775808)) ∧
     IsRepF 24 MAX_F32_I64 ∧ IsRepF 24 (9223372036854775808 : ℚ) ∧
     ∀ q : ℚ, MAX_F32_I64 < q → q < 9223372036854775808 → ¬ IsRepF 24 q) ∧
    (approxF2I .f32 .i64 .DefaultApprox (.fin MIN_F32_I64) =
       .Ok (-9223372036854775808) ∧
     castIntF .f32 (-9223372036854775808) = MIN_F32_I64 ∧
     approxF2I .f32 .i64 .DefaultApprox (.fin (-9223373136366403584)) =
       .Err (.NegOverflow (.fin (-9223373136366403584))) ∧
     IsRepF 24 MIN_F32_I64 ∧ IsRepF 24 (-9223373136366403584 : ℚ) ∧
     ∀ q : ℚ, -9223373136366403584 < q → q < MIN_F32_I64 → ¬ IsRepF 24 q) ∧
    (approxF2I .f32 .u32 .DefaultApprox (.fin MAX_F32_U32) =
       .Ok 4294967040 ∧
     castIntF .f32 4294967040 = MAX_F32_U32 ∧
     approxF2I .f32 .u32 .DefaultApprox (.fin 4294967296) =
       .Err (.PosOverflow (.fin 4294967296)) ∧
     IsRepF 24 MAX_F32_U32 ∧ IsRepF 24 (4294967296 : ℚ) ∧
     ∀ q : ℚ, MAX_F32_U32 < q → q < 4294967296 → ¬ IsRepF 24 q) ∧
    (approxF2I .f32 .u64 .DefaultApprox (.fin MAX_F32_U64) =
       .Ok 18446742974197923840 ∧
     castIntF .f32 18446742974197923840 = MAX_F32_U64 ∧
     approxF2I .f32 .u64 .DefaultApprox (.fin 18446744073709551616) =
       .Err (.PosOverflow (.fin 18446744073709551616)) ∧
     IsRepF 24 MAX_F32_U64 ∧ IsRepF 24 (18446744073709551616 : ℚ) ∧
     ∀ q : ℚ, MAX_F32_U64 < q → q < 18446744073709551616 → ¬ IsRepF 24 q) ∧
    (approxF2I .f64 .i64 .DefaultApprox (.fin MAX_F64_I64) =
       .Ok 9223372036854774784 ∧
     castIntF .f64 9223372036854774784 = MAX_F64_I64 ∧
     approxF2I .f64 .i64 .DefaultApprox (.fin 9223372036854775808) =
       .Err (.PosOverflow (.fin 9223372036854775808)) ∧
     IsRepF 53 MAX_F64_I64 ∧ IsRepF 53 (9223372036854775808 : ℚ) ∧
     ∀ q : ℚ, MAX_F64_I64 < q → q < 9223372036854775808 → ¬ IsRepF 53 q) ∧
    (approxF2I .f64 .i64 .DefaultApprox (.fin MIN_F64_I64) =
       .Ok (-9223372036854775808) ∧
     castIntF .f64 (-9223372036854775808) = MIN_F64_I64 ∧
     approxF2I .f64 .i64 .DefaultApprox (.fin (-9223372036854777856)) =
       .Err (.NegOverflow (.fin (-9223372036854777856))) ∧
     IsRepF 53 MIN_F64_I64 ∧ IsRepF 53 (-9223372036854777856 : ℚ) ∧
     ∀ q : ℚ, -9223372036854777856 < q → q < MIN_F64_I64 → ¬ IsRepF 53 q) ∧
    (approxF2I .f64 .u64 .DefaultApprox (.fin MAX_F64_U64) =
       .Ok 18446744073709549568 ∧
     castIntF .f64 18446744073709549568 = MAX_F64_U64 ∧
     approxF2I .f64 .u64 .DefaultApprox (.fin 18446744073709551616) =
       .Err (.PosOverflow (.fin 18446744073709551616)) ∧
     IsRepF 53 MAX_F64_U64 ∧ IsRepF 53 (18446744073709551616 : ℚ) ∧
     ∀ q : ℚ, MAX_F64_U64 < q → q < 18446744073709551616 → ¬ IsRepF 53 q) := by
  exact ⟨
    ⟨by decide, by decide, by decide,
     ⟨16777215, 7, by norm_num,
      by rw [(by decide : MAX_F32_I32 = (2147483520 : ℚ))]; norm_num⟩,
     ⟨8388608, 8, by norm_num, by norm_num⟩,
     repGapLit 24 (by norm_num) 16777215 7 (by norm_num) (by norm_num) _ _
       (by rw [(by decide : MAX_F32_I32 = (2147483520 : ℚ))]; norm_num)
       (by norm_num)⟩,
    ⟨by decide, by decide, by decide,
     ⟨-8388608, 8, by norm_num,
      by rw [(by decide : MIN_F32_I32 = (-2147483648 : ℚ))]; norm_num⟩,
     ⟨-8388609, 8, by norm_num, by norm_num⟩,
     repGapNegLit 24 (by norm_num) 8388608 8 (by norm_num) (by norm_num) _ _
       (by norm_num)
       (by rw [(by decide : MIN_F32_I32 = (-2147483648 : ℚ))]; norm_num)⟩,
    ⟨by decide, by decide, by decide,
     ⟨16777215, 39, by norm_num,
      by rw [(by decide : MAX_F32_I64 = (9223371487098961920 : ℚ))]; norm_num⟩,
     ⟨8388608, 40, by norm_num, by norm_num⟩,
     repGapLit 24 (by norm_num) 16777215 39 (by norm_num) (by norm_num) _ _
       (by rw [(by decide : MAX_F32_I64 = (9223371487098961920 : ℚ))]; norm_num)
       (by norm_num)⟩,
    ⟨by decide, by decide, by decide,
     ⟨-8388608, 40, by norm_num,
      by rw [(by decide : MIN_F32_I64 = (-9223372036854775808 : ℚ))]; norm_num⟩,
     ⟨-8388609, 40, by norm_num, by norm_num⟩,
     repGapNegLit 24 (by norm_num) 8388608 40 (by norm_num) (by norm_num) _ _
       (by norm_num)
       (by rw [(by decide : MIN_F32_I64 = (-9223372036854775808 : ℚ))];
           norm_num)⟩,
    ⟨by decide, by decide, by decide,
     ⟨16777215, 8, by norm_num,
      by rw [(by decide : MAX_F32_U32 = (4294967040 : ℚ))]; norm_num⟩,
     ⟨8388608, 9, by norm_num, by norm_num⟩,
     repGapLit 24 (by norm_num) 16777215 8 (by norm_num) (by norm_num) _ _
       (by rw [(by decide : MAX_F32_U32 = (4294967040 : ℚ))]; norm_num)
       (by norm_num)⟩,
    ⟨by decide, by decide, by decide,
     ⟨16777215, 40, by norm_num,
      by rw [(by decide : MAX_F32_U64 = (18446742974197923840 : ℚ))]; norm_num⟩,
     ⟨8388608, 41, by norm_num, by norm_num⟩,
     repGapLit 24 (by norm_num) 16777215 40 (by norm_num) (by norm_num) _ _
       (by rw [(by decide : MAX_F32_U64 = (18446742974197923840 : ℚ))];
           norm_num)
       (by norm_num)⟩,
    ⟨by decide, by decide, by decide,
     ⟨9007199254740991, 10, by norm_num,
      by rw [(by decide : MAX_F64_I64 = (9223372036854774784 : ℚ))]; norm_num⟩,
     ⟨4503599627370496, 11, by norm_num, by norm_num⟩,
     repGapLit 53 (by norm_num) 9007199254740991 10 (by norm_num) (by norm_num)
       _ _
       (by rw [(by decide : MAX_F64_I64 = (9223372036854774784 : ℚ))]; norm_num)
       (by norm_num)⟩,
    ⟨by decide, by decide, by decide,
     ⟨-4503599627370496, 11, by norm_num,
      by rw [(by decide : MIN_F64_I64 = (-9223372036854775808 : ℚ))]; norm_num⟩,
     ⟨-4503599627370497, 11, by norm_num, by norm_num⟩,
     repGapNegLit 53 (by norm_num) 4503599627370496 11 (by norm_num)
       (by norm_num) _ _
       (by norm_num)
       (by rw [(by decide : MIN_F64_I64 = (-9223372036854775808 : ℚ))];
           norm_num)⟩,
    ⟨by decide, by decide, by decide,
     ⟨9007199254740991, 11, by norm_num,
      by rw [(by decide : MAX_F64_U64 = (18446744073709549568 : ℚ))]; norm_num⟩,
     ⟨4503599627370496, 12, by norm_num, by norm_num⟩,
     repGapLit 53 (by norm_num) 9007199254740991 11 (by norm_num) (by norm_num)
       _ _
       (by rw [(by decide : MAX_F64_U64 = (18446744073709549568 : ℚ))];
           norm_num)
       (by norm_num)⟩⟩

/-- Witness for C3: applying the gap statement of the first block at the
concrete value `2147483583`, which lies strictly between `MAX_F32_I32` and
the next representable value `2 ^ 31`, shows it is not representable. -/
theorem c3_boundary_exactness_witness : ¬ IsRepF 24 (2147483583 : ℚ) :=
  c3_boundary_exactness.1.2.2.2.2.2 2147483583 (by decide) (by norm_num)

/-- C1: for every float-to-integer conversion (both float sources, all ten
integer destinations, every approximation scheme with a float→int
implementation), a NaN input yields `Err(FloatError::NotANumber(input))`;
the NaN test precedes rounding and every bound check, so NaN never yields
an overflow kind. -/
theorem c1_nan_precedence :
    ∀ (ft : FloatTy) (it : IntTy) (s : Scheme),
      approxF2I ft it s .nan = .Err (.NotANumber .nan) := by
  decide

/-- C2 counterexample: the claim says every float→int conversion under the
default scheme uses the destination type's own MIN/MAX as the accept/reject
threshold, so an input strictly within 1.0 beyond them still succeeds.  For
`f32 → u32` the input `-0.5` is strictly within 1.0 below `u32::MIN = 0`
(and truncates to `0`, inside the `u32` range), yet the conversion rejects
it with `NegOverflow(-0.5)`, because this pair uses the explicit boundary
limits `[0.0, MAX_F32_U32]` with a strict `< 0.0` test. -/
theorem c2_default_counterexample :
    approxF2I .f32 .u32 .DefaultApprox (.fin (mkRat (-1) 2)) =
      .Err (.NegOverflow (.fin (mkRat (-1) 2))) ∧
    truncQ (mkRat (-1) 2) = 0 ∧
    IntTy.u32.tmin ≤ 0 ∧ (0 : ℤ) ≤ IntTy.u32.tmax ∧
    ((IntTy.u32.tmin - 1 : ℤ) : ℚ) < mkRat (-1) 2 := by
  decide

/-- C2 amended: under the default scheme, float→int conversion truncates
toward zero; for the pairs whose destination bounds are exactly
representable in the source float (the `dstRange` pairs), the thresholds
are the destination's own MIN/MAX extended by 1.0 exclusively, so an input
strictly within 1.0 beyond the destination's true min/max still succeeds
(`255.9f32 → u8` gives `Ok(255)`); for the remaining pairs the thresholds
are the precomputed boundary constants instead. -/
theorem c2_default_trunc_amended :
    (∀ (ft : FloatTy) (it : IntTy) (q : ℚ), f2iKind ft it = .dstRange →
      approxF2I ft it .DefaultApprox (.fin q) =
        (if q ≤ ((it.tmin - 1 : ℤ) : ℚ) then .Err (.NegOverflow (.fin q))
         else if ((it.tmax + 1 : ℤ) : ℚ) ≤ q then .Err (.PosOverflow (.fin q))
         else .Ok (truncQ q))) ∧
    (∀ (ft : FloatTy) (it : IntTy) (mn mx q : ℚ),
      f2iKind ft it = .explicitLimits mn mx →
      approxF2I ft it .DefaultApprox (.fin q) =
        (if q < mn then .Err (.NegOverflow (.fin q))
         else if mx < q then .Err (.PosOverflow (.fin q))
         else .Ok (truncQ q))) ∧
    approxF2I .f32 .u8 .DefaultApprox (.fin (f32OfRat (mkRat 2559 10))) =
      .Ok 255 := by
  refine ⟨?_, ?_, by decide⟩
  · intro ft it q hk
    simp only [approxF2I, hk]
    exact float2int_trunc_fin _ _ q
  · intro ft it mn mx q hk
    simp only [approxF2I, hk]
    exact float2int_trunc_large_fin mn mx q

/-- Witness for the amended C2: the `dstRange` characterisation applied at
the pair `(f32, u8)` and input `0.5`. -/
theorem c2_default_trunc_amended_witness :
    approxF2I .f32 .u8 .DefaultApprox (.fin (mkRat 1 2)) =
      (if (mkRat 1 2 : ℚ) ≤ ((IntTy.u8.tmin - 1 : ℤ) : ℚ) then
        .Err (.NegOverflow (.fin (mkRat 1 2)))
       else if ((IntTy.u8.tmax + 1 : ℤ) : ℚ) ≤ mkRat 1 2 then
        .Err (.PosOverflow (.fin (mkRat 1 2)))
       else .Ok (truncQ (mkRat 1 2))) :=
  c2_default_trunc_amended.1 .f32 .u8 (mkRat 1 2) rfl

/-- C4: the explicit rounding schemes first apply the scheme's rounding
step, then check the rounded value (not the raw input) against the pair's
bounds, and every error carries the original un-rounded input; in
particular `255.5f32 → u8` under `RoundToNearest` rounds to 256 and yields
`Err(PosOverflow(255.5))`, while under `RoundToZero` it yields `Ok(255)`. -/
theorem c4_round_then_check :
    (∀ (ft : FloatTy) (it : IntTy) (s : Scheme) (q : ℚ),
      s.isRounding = true →
      approxF2I ft it s (.fin q) =
        (if s.roundFn q < (roundBounds ft it).1 then
          .Err (.NegOverflow (.fin q))
         else if (roundBounds ft it).2 < s.roundFn q then
          .Err (.PosOverflow (.fin q))
         else .Ok (truncQ (s.roundFn q)))) ∧
    approxF2I .f32 .u8 .RoundToNearest (.fin (mkRat 511 2)) =
      .Err (.PosOverflow (.fin (mkRat 511 2))) ∧
    approxF2I .f32 .u8 .RoundToZero (.fin (mkRat 511 2)) = .Ok 255 := by
  refine ⟨?_, by decide, by decide⟩
  intro ft it s q hs
  cases s with
  | DefaultApprox => simp [Scheme.isRounding] at hs
  | RoundToZero => simp [Scheme.isRounding] at hs
  | RoundToNearest =>
    cases hk : f2iKind ft it with
    | explicitLimits mn mx =>
      simp only [approxF2I, runF2I, roundBounds, hk, Scheme.roundFn]
      exact float2int_round_fin mn mx q roundAwayQ
    | dstRange =>
      simp only [approxF2I, runF2I, roundBounds, hk, Scheme.roundFn]
      exact float2int_round_fin _ _ q roundAwayQ
  | RoundToNegInf =>
    cases hk : f2iKind ft it with
    | explicitLimits mn mx =>
      simp only [approxF2I, runF2I, roundBounds, hk, Scheme.roundFn]
      exact float2int_round_fin mn mx q floorQ
    | dstRange =>
      simp only [approxF2I, runF2I, roundBounds, hk, Scheme.roundFn]
      exact float2int_round_fin _ _ q floorQ
  | RoundToPosInf =>
    cases hk : f2iKind ft it with
    | explicitLimits mn mx =>
      simp only [approxF2I, runF2I, roundBounds, hk, Scheme.roundFn]
      exact float2int_round_fin mn mx q ceilQ
    | dstRange =>
      simp only [approxF2I, runF2I, roundBounds, hk, Scheme.roundFn]
      exact float2int_round_fin _ _ q ceilQ

/-- Witness for C4: the rounding characterisation applied at `(f32, u8)`,
`RoundToNearest`, input `255.5`. -/
theorem c4_round_then_check_witness :
    approxF2I .f32 .u8 .RoundToNearest (.fin (mkRat 511 2)) =
      (if Scheme.roundFn .RoundToNearest (mkRat 511 2) <
          (roundBounds .f32 .u8).1 then
        .Err (.NegOverflow (.fin (mkRat 511 2)))
       else if (roundBounds .f32 .u8).2 <
          Scheme.roundFn .RoundToNearest (mkRat 511 2) then
        .Err (.PosOverflow (.fin (mkRat 511 2)))
       else .Ok (truncQ (Scheme.roundFn .RoundToNearest (mkRat 511 2)))) :=
  c4_round_then_check.1 .f32 .u8 .RoundToNearest (mkRat 511 2) rfl

/-- C5: integer conversion under `ValueFrom` (and the identical default
approximation scheme) performs the canonical check — below the
destination's MIN first (`NegOverflow` carrying the input), then above its
MAX (`PosOverflow` carrying the input), else `Ok` with the value preserved
exactly; `200i16 → i8` yields `PosOverflow(200)` and `-1i8 → u8` yields
`NegOverflow(-1)`. -/
theorem c5_int_narrowing :
    (∀ (s d : IntTy) (x : ℤ), s.tmin ≤ x → x ≤ s.tmax →
      valueFromInt s d x =
        (if x < d.tmin then .Err (.NegOverflow x)
         else if d.tmax < x then .Err (.PosOverflow x)
         else .Ok x)) ∧
    (∀ (s d : IntTy) (x : ℤ), approxDefaultInt s d x = valueFromInt s d x) ∧
    valueFromInt .i16 .i8 200 = .Err (.PosOverflow 200) ∧
    valueFromInt .i8 .u8 (-1) = .Err (.NegOverflow (-1)) := by
  refine ⟨?_, fun s d x => rfl, by decide, by decide⟩
  intro s d x h1 h2
  exact armRun_eq h1 h2 (intArm_ok s d)

/-- Witness for C5: the canonical-check characterisation applied at
`(i16, i8)` and input `200`. -/
theorem c5_int_narrowing_witness :
    valueFromInt .i16 .i8 200 =
      (if (200 : ℤ) < IntTy.i8.tmin then .Err (.NegOverflow 200)
       else if IntTy.i8.tmax < (200 : ℤ) then .Err (.PosOverflow 200)
       else .Ok 200) :=
  c5_int_narrowing.1 .i16 .i8 200 (by decide) (by decide)

/-- C6: exact (`ValueFrom`) integer-to-float conversion for the
float-narrowing pairs succeeds exactly when the input's magnitude is at
most the pair's literal bound (16777216 for the listed types to `f32`,
9007199254740992 = 9_007_199_254_740_992 to `f64`), failing with the
matching overflow error carrying the input otherwise;
`f64::value_from(16_777_216i32)` is `Ok(16777216.0)` and
`f32::value_from(16_777_217i32)` is `Err(PosOverflow(16777217))`. -/
theorem c6_int_to_float_bounds :
    (∀ (s : IntTy) (ft : FloatTy) (b x : ℤ), i2fArm s ft = .nfSym b →
      valueFromI2F s ft x =
        (if x < -b then .Err (.NegOverflow x)
         else if b < x then .Err (.PosOverflow x)
         else .Ok (castIntF ft x))) ∧
    (∀ (s : IntTy) (ft : FloatTy) (b x : ℤ), i2fArm s ft = .nfMax b →
      valueFromI2F s ft x =
        (if b < x then .Err (.PosOverflow x)
         else .Ok (castIntF ft x))) ∧
    (∀ (s : IntTy) (ft : FloatTy) (b x : ℤ), i2fArm s ft = .nfSym b →
      ((∃ v, valueFromI2F s ft x = .Ok v) ↔ |x| ≤ b)) ∧
    (∀ (s : IntTy) (ft : FloatTy) (b x : ℤ), i2fArm s ft = .nfMax b →
      0 ≤ x → ((∃ v, valueFromI2F s ft x = .Ok v) ↔ |x| ≤ b)) ∧
    (i2fArm .i32 .f32 = .nfSym 16777216 ∧ i2fArm .i64 .f32 = .nfSym 16777216 ∧
     i2fArm .isize .f32 = .nfSym 16777216 ∧
     i2fArm .u32 .f32 = .nfMax 16777216 ∧ i2fArm .u64 .f32 = .nfMax 16777216 ∧
     i2fArm .usize .f32 = .nfMax 16777216 ∧
     i2fArm .i64 .f64 = .nfSym 9007199254740992 ∧
     i2fArm .u64 .f64 = .nfMax 9007199254740992) ∧
    valueFromI2F .i32 .f64 16777216 = .Ok 16777216 ∧
    valueFromI2F .i32 .f32 16777217 = .Err (.PosOverflow 16777217) := by
  refine ⟨?_, ?_, ?_, ?_, by decide, by decide, by decide⟩
  · intro s ft b x h
    simp only [valueFromI2F, h]
  · intro s ft b x h
    simp only [valueFromI2F, h]
  · intro s ft b x h
    simp only [valueFromI2F, h]
    constructor
    · rintro ⟨v, hv⟩
      split_ifs at hv
      rw [abs_le]
      constructor <;> omega
    · intro hb
      rw [abs_le] at hb
      exact ⟨castIntF ft x, by rw [if_neg (by omega), if_neg (by omega)]⟩
  · intro s ft b x h hx
    simp only [valueFromI2F, h]
    constructor
    · rintro ⟨v, hv⟩
      split_ifs at hv
      rw [abs_le]
      constructor <;> omega
    · intro hb
      rw [abs_le] at hb
      exact ⟨castIntF ft x, by rw [if_neg (by omega)]⟩

/-- Witness for C6: the symmetric-bound characterisation applied at
`(i32, f32)` and input `16777217`. -/
theorem c6_int_to_float_bounds_witness :
    valueFromI2F .i32 .f32 16777217 =
      (if (16777217 : ℤ) < -16777216 then .Err (.NegOverflow 16777217)
       else if (16777216 : ℤ) < 16777217 then .Err (.PosOverflow 16777217)
       else .Ok (castIntF .f32 16777217)) :=
  c6_int_to_float_bounds.1 .i32 .f32 16777216 16777217 rfl

/-- C7: for every pair of integer types the `Wrapping`-scheme conversion
never fails (its error type `NoError` is uninhabited and the result is
always `Ok`), and the result is congruent to the input modulo
`2 ^ (bit width of the destination)` while lying inside the destination's
signed/unsigned range; `400u16` wraps to `144u8`. -/
theorem c7_wrapping_total_modular :
    (∀ (s d : IntTy) (x : ℤ), approxWrappingInt s d x = .Ok (wrapCast d x)) ∧
    (∀ (d : IntTy) (x : ℤ),
      wrapCast d x % ((2 ^ d.bits : ℕ) : ℤ) = x % ((2 ^ d.bits : ℕ) : ℤ)) ∧
    (∀ (d : IntTy) (x : ℤ), d.tmin ≤ wrapCast d x ∧ wrapCast d x ≤ d.tmax) ∧
    approxWrappingInt .u16 .u8 400 = .Ok 144 := by
  exact ⟨fun s d x => rfl, fun d x => wrapCast_mod x, wrapCast_in_range,
    by decide⟩

/-- C8: saturating a float-conversion result replaces `NegOverflow` with
the destination's minimum and `PosOverflow` with its maximum, but maps
`NotANumber(v)` to a residual `Err(Unrepresentable(v))` — never a bound
value — so the caller must still handle NaN; saturating the integer
conversion of `-5i32` to `u8` gives `Ok(0)`. -/
theorem c8_saturate :
    (∀ (it : IntTy) (v : Fp),
      saturateFloat it (.Err (.NegOverflow v)) = .Ok it.tmin) ∧
    (∀ (it : IntTy) (v : Fp),
      saturateFloat it (.Err (.PosOverflow v)) = .Ok it.tmax) ∧
    (∀ (it : IntTy) (v : Fp),
      saturateFloat it (.Err (.NotANumber v)) = .Err (.mk v)) ∧
    (∀ (ft : FloatTy) (it : IntTy) (s : Scheme),
      saturateFloat it (approxF2I ft it s .nan) = .Err (.mk .nan)) ∧
    saturateRange .u8 (valueFromInt .i32 .u8 (-5)) = .Ok 0 ∧
    (∀ (it : IntTy) (v : ℤ),
      saturateRange it (.Err (.NegOverflow v)) = .Ok it.tmin) ∧
    (∀ (it : IntTy) (v : ℤ),
      saturateRange it (.Err (.PosOverflow v)) = .Ok it.tmax) := by
  exact ⟨fun it v => rfl, fun it v => rfl, fun it v => rfl, by decide,
    by decide, fun it v => rfl, fun it v => rfl⟩

/-- C9: on every `Ok` path of every float-to-integer conversion the input
was finite and the produced integer lies inside the destination type's
range — exactly the precondition under which the `unsafe to_int_unchecked`
cast in the source is defined; failures are always returned as `Err`
values. -/
theorem c9_unchecked_cast_safe :
    ∀ (ft : FloatTy) (it : IntTy) (s : Scheme) (src : Fp) (n : ℤ),
      approxF2I ft it s src = .Ok n →
      src.isFinite = true ∧ it.tmin ≤ n ∧ n ≤ it.tmax :=
  fun _ft _it _s _src _n h => runF2I_ok (f2iKind_wf _ _) h

/-- Witness for C9: applied at `(f32, u8)`, default scheme, input `0.5`,
result `0`. -/
theorem c9_unchecked_cast_safe_witness :
    (Fp.fin (mkRat 1 2)).isFinite = true ∧
    IntTy.u8.tmin ≤ 0 ∧ (0 : ℤ) ≤ IntTy.u8.tmax :=
  c9_unchecked_cast_safe .f32 .u8 .DefaultApprox (.fin (mkRat 1 2)) 0
    (by decide)

/-- C10: the `f64 → f32` approximate conversion returns every non-finite
input as `Ok(input as f32)` before any range check: NaN converts to NaN and
each infinity to the like-signed infinity, with no error. -/
theorem c10_f64_to_f32_nonfinite :
    (∀ src : Fp, src.isFinite = false →
      approxF64toF32 src = .Ok (castF64F32 src)) ∧
    approxF64toF32 .nan = .Ok .nan ∧
    approxF64toF32 (.inf false) = .Ok (.inf false) ∧
    approxF64toF32 (.inf true) = .Ok (.inf true) := by
  refine ⟨?_, by decide, by decide, by decide⟩
  intro src h
  simp [approxF64toF32, h]

/-- Witness for C10: the non-finite clause applied at NaN. -/
theorem c10_f64_to_f32_nonfinite_witness :
    approxF64toF32 .nan = .Ok (castF64F32 .nan) :=
  c10_f64_to_f32_nonfinite.1 .nan rfl

end Conv2
